import Mathlib

/-!
Verification of the coalition-scoring and majority-search engine.

Shallow embedding of the core of `src/app.js` (kieswijzer-2025): coalition
enumeration (`generateMajorityCoalitions`, `getCombinations`), agreement
scoring (`calculateCoalitionAgreement`), and ranking (`findBestCoalitions`).

Modelling conventions:
* JS numbers are modelled as exact rationals (`ℚ`).  All divisions in the
  source have small integer operands, and every comparison in the claims
  happens after rounding to one decimal, so the exact-rational abstraction
  is faithful for the properties considered here.
* The one place the source can produce `NaN` (the unguarded division
  `totalAgreementScore / totalStatements` when `statements` is empty) is
  tracked explicitly: a JS number that may be `NaN` is an `Option ℚ`, with
  `none` standing for `NaN`.  `Math.max(0, NaN)`, `NaN * c` and
  `Math.round(NaN)` all yield `NaN`, which is exactly `Option.map`.
* `Math.round x` on the (non-negative, finite) values arising here is
  `⌊x + 1/2⌋`.
-/

/-- A party as loaded from `party_seats_exitpoll_2025.json`:
`{ name: string, seats: integer ≥ 0 }` (rendered fields are omitted). -/
structure Party where
  name : String
  seats : Nat
deriving DecidableEq

/-- A statement's stance data: `positions` maps a party name to its stance.
`none` models a name absent from the `positions` object (JS `undefined`);
`some v` models a recorded value `v` (the well-formed values are
`-1`, `0`, `1`, but the code must cope with anything).  The `id`/`text`
fields of the source object are not read by the scoring engine. -/
structure Statement where
  positions : String → Option ℤ

/-- A JS number that may be `NaN`: `none` is `NaN`. -/
abbrev JSNum := Option ℚ

/-- JS `Math.round` for the non-negative finite values in this program:
round half away from zero, i.e. `⌊q + 1/2⌋`. -/
def jsRound (q : ℚ) : ℤ := ⌊q + 1/2⌋

/-- Rounding `Math.round(q * 10) / 10` — round to one decimal, as in the source. -/
def round1 (q : ℚ) : ℚ := (jsRound (q * 10) : ℚ) / 10

/-- Rounding `Math.round(q * 1000) / 1000` — round to three decimals, as in the source. -/
def round3 (q : ℚ) : ℚ := (jsRound (q * 1000) : ℚ) / 1000

/-- Seat sum `coalition.reduce((sum, p) => sum + p.seats, 0)`. -/
def sumSeats (coalition : List Party) : Nat :=
  coalition.foldl (fun sum p => sum + p.seats) 0

/-!
The function `getCombinations` (src/app.js lines 284 to 296):

```js
function getCombinations(arr, size) {
    if (size === 1) return arr.map(item => [item]);
    const combinations = [];
    for (let i = 0; i <= arr.length - size; i++) {
        const head = arr[i];
        const tailCombos = getCombinations(arr.slice(i + 1), size - 1);
        for (const tail of tailCombos) {
            combinations.push([head, ...tail]);
        }
    }
    return combinations;
}
```

For `size ≥ 2` the loop over `i` is `combLoop` below: the `i = 0` iteration
contributes `map (head :: ·) (getCombinations rest (size-1))` and the
iterations `i ≥ 1` are the same loop on `rest`; the loop runs zero times
when `arr.length < size`, which the recursion reproduces because the
recursive calls then return `[]`.  The source never calls `size = 0`
(callers start at `size = 1`); we map that unreachable case to `[]`. -/
def combLoop (f : List Party → List (List Party)) :
    List Party → List (List Party)
  | [] => []
  | head :: rest => ((f rest).map (fun tail => head :: tail)) ++ combLoop f rest

/-- The recursion of `getCombinations` on `size` (argument order swapped so
that the recursion is structural). -/
def getCombinationsAux : Nat → List Party → List (List Party)
  | 0, _ => []
  | 1, arr => arr.map (fun item => [item])
  | size + 2, arr => combLoop (getCombinationsAux (size + 1)) arr

/-- JS `getCombinations(arr, size)`. -/
def getCombinations (arr : List Party) (size : Nat) : List (List Party) :=
  getCombinationsAux size arr

/-!
The function `generateMajorityCoalitions` (src/app.js lines 249 to 282):

```js
function generateMajorityCoalitions(requiredPartyName = null) {
    const coalitions = [];
    const requiredParties = requiredPartyName
        ? parties.filter(p => p.name === requiredPartyName) : [];
    if (requiredPartyName && requiredParties.length === 0) {
        return coalitions; // Required party not found
    }
    const availableParties = requiredPartyName
        ? parties.filter(p => p.name !== requiredPartyName) : parties;
    const maxSize = Math.min(5 - requiredParties.length, availableParties.length);
    for (let size = 1; size <= maxSize; size++) {
        const combinations = getCombinations(availableParties, size);
        for (const combo of combinations) {
            const coalition = [...requiredParties, ...combo];
            const seats = coalition.reduce((sum, p) => sum + p.seats, 0);
            if (seats >= 76) { coalitions.push(coalition); }
        }
    }
    return coalitions;
}
```

The global `parties` roster is passed explicitly.  The DOM caller passes
`''` for "no preference", which is falsy like `null`: both are `none`. -/
def generateMajorityCoalitions (parties : List Party)
    (requiredPartyName : Option String) : List (List Party) :=
  let requiredParties := match requiredPartyName with
    | some nm => parties.filter (fun p => p.name == nm)
    | none => []
  if requiredPartyName.isSome && requiredParties.isEmpty then []
  else
    let availableParties := match requiredPartyName with
      | some nm => parties.filter (fun p => p.name != nm)
      | none => parties
    let maxSize := min (5 - requiredParties.length) availableParties.length
    (List.range' 1 maxSize).flatMap (fun size =>
      (getCombinations availableParties size).filterMap (fun combo =>
        let coalition := requiredParties ++ combo
        if 76 ≤ sumSeats coalition then some coalition else none))

/-!
The function `calculateCoalitionAgreement` (src/app.js lines 298 to 349).

Per statement the source maps each coalition party to its stance and seats,
then accumulates seat counts into three buckets with
`if (s.stance === 1) ... else if (s.stance === 0) ... else if (s.stance === -1) ...`
(anything else falls through and counts nowhere).
-/

/-- One `forEach` step of the bucket accumulation: the accumulator is
`(agreeSeats, neutralSeats, disagreeSeats)`. -/
def tallyStep (stance : Option ℤ) (seats : Nat) (acc : Nat × Nat × Nat) :
    Nat × Nat × Nat :=
  match stance with
  | some 1 => (acc.1 + seats, acc.2.1, acc.2.2)
  | some 0 => (acc.1, acc.2.1 + seats, acc.2.2)
  | some (-1) => (acc.1, acc.2.1, acc.2.2 + seats)
  | _ => acc

/-- Seat totals `(agreeSeats, neutralSeats, disagreeSeats)` for one
statement over a coalition. -/
def stanceTally (statement : Statement) (coalition : List Party) :
    Nat × Nat × Nat :=
  coalition.foldl
    (fun acc party => tallyStep (statement.positions party.name) party.seats acc)
    (0, 0, 0)

/-- Total `totalSeats = agreeSeats + neutralSeats + disagreeSeats`. -/
def totalSeatsOf (statement : Statement) (coalition : List Party) : Nat :=
  (stanceTally statement coalition).1 + (stanceTally statement coalition).2.1
    + (stanceTally statement coalition).2.2

/-- Largest bucket `maxSeats = Math.max(agreeSeats, neutralSeats, disagreeSeats)`. -/
def maxSeatsOf (statement : Statement) (coalition : List Party) : Nat :=
  max (stanceTally statement coalition).1
    (max (stanceTally statement coalition).2.1
      (stanceTally statement coalition).2.2)

/-- Fraction `majorityFraction = maxSeats / totalSeats` (only used when
`totalSeats ≠ 0`). -/
def majorityFraction (statement : Statement) (coalition : List Party) : ℚ :=
  (maxSeatsOf statement coalition : ℚ) / (totalSeatsOf statement coalition : ℚ)

/-- The contribution of one statement to `totalAgreementScore`:
`0` when `totalSeats === 0` (the callback returns early, adding nothing),
otherwise `Math.max(0, (majorityFraction - 0.5) / 0.5)`. -/
def statementAgreement (statement : Statement) (coalition : List Party) : ℚ :=
  if totalSeatsOf statement coalition = 0 then 0
  else max 0 ((majorityFraction statement coalition - 1/2) / (1/2))

/-- Accumulated `totalAgreementScore`: sum of the statement agreements over all
statements (the `forEach` accumulation). -/
def totalAgreementScore (statements : List Statement)
    (coalition : List Party) : ℚ :=
  statements.foldl (fun acc st => acc + statementAgreement st coalition) 0

/-- Average `averageAgreement = totalAgreementScore / totalStatements`.
When `statements` is empty this is the JS division `0 / 0 = NaN`,
modelled as `none`. -/
def averageAgreementQ (statements : List Statement)
    (coalition : List Party) : JSNum :=
  if statements.length = 0 then none
  else some (totalAgreementScore statements coalition / (statements.length : ℚ))

/-- Penalty `sizePenalty = Math.max(0, (coalition.length - 2) * 0.05)`. -/
def sizePenalty (coalition : List Party) : ℚ :=
  max 0 (((coalition.length : ℚ) - 2) * (5 / 100))

/-- The returned score object. The three rational fields can carry `NaN`
(`none`) when the statement list is empty. -/
structure CoalitionScore where
  agreementRate : JSNum
  averageAgreement : JSNum
  adjustedAgreement : JSNum
  coalitionSize : Nat
  totalStatements : Nat
  seats : Nat
deriving DecidableEq

/-- The scorer.  `Math.max(0, NaN - p) = NaN`, `NaN * 100 = NaN` and
`Math.round(NaN) = NaN`, so `NaN` propagates through every arithmetic
step — hence the `Option.map`s. -/
def calculateCoalitionAgreement (statements : List Statement)
    (coalition : List Party) : CoalitionScore :=
  let averageAgreement := averageAgreementQ statements coalition
  let adjustedAgreement :=
    averageAgreement.map (fun avg => max 0 (avg - sizePenalty coalition))
  let agreementRate := adjustedAgreement.map (fun adj => adj * 100)
  { agreementRate := agreementRate.map round1
    averageAgreement := averageAgreement.map round3
    adjustedAgreement := adjustedAgreement.map round3
    coalitionSize := coalition.length
    totalStatements := statements.length
    seats := sumSeats coalition }

/-!
The function `findBestCoalitions` (src/app.js lines 222 to 247).

Generate, score, sort with the comparator
`(a, b) => b.score.agreementRate - a.score.agreementRate` (a stable sort,
descending by `agreementRate`, per the ECMAScript `Array.prototype.sort`
contract), and `slice(0, 5)`.  The comparator model reads the rate through
`Option.getD 0`; for the app's data the statement list is non-empty, so no
rate is ever `NaN` and the two readings agree (a `NaN` comparator value
would make the JS sort order implementation-defined anyway). -/

/-- The sort key: the scored coalition's `agreementRate`. -/
def rateD (sc : List Party × CoalitionScore) : ℚ :=
  sc.2.agreementRate.getD 0

/-- Scoring pass of `findBestCoalitions`. -/
def scoredCoalitions (parties : List Party) (statements : List Statement)
    (requiredParty : Option String) : List (List Party × CoalitionScore) :=
  (generateMajorityCoalitions parties requiredParty).map
    (fun coalition => (coalition, calculateCoalitionAgreement statements coalition))

/-- Top-level `findBestCoalitions`, returning the data handed to
`displayCoalitionSuggestions`. -/
def findBestCoalitions (parties : List Party) (statements : List Statement)
    (requiredParty : Option String) : List (List Party × CoalitionScore) :=
  (((scoredCoalitions parties statements requiredParty).mergeSort
    (fun a b => decide (rateD b ≤ rateD a))).take 5)

/-!
Concrete data used by witnesses and counterexamples: the roster of the
testable-properties section of the specification (`A` 76 seats, `B` 40,
`C` 34) and a handful of statements over it.
-/

/-- Example party `A` with 76 seats. -/
def pA : Party := ⟨"A", 76⟩

/-- Example party `B` with 40 seats. -/
def pB : Party := ⟨"B", 40⟩

/-- Example party `C` with 34 seats. -/
def pC : Party := ⟨"C", 34⟩

/-- Example party `Z` with 3 seats, absent from every statement below. -/
def pZ : Party := ⟨"Z", 3⟩

/-- The spec example statement: positions `{A: 1, B: 1, C: -1}`. -/
def exSt : Statement :=
  ⟨fun n => if n = "A" then some 1 else if n = "B" then some 1
    else if n = "C" then some (-1) else none⟩

/-- A statement agreeing with the spec example on `A` and `C` but with no
recorded stance for `B`: positions `{A: 1, C: -1}`. -/
def exStNoB : Statement :=
  ⟨fun n => if n = "A" then some 1 else if n = "C" then some (-1) else none⟩

/-- A statement every example party agrees with: `{A: 1, B: 1, C: 1}`. -/
def exStAll : Statement :=
  ⟨fun n => if n = "A" ∨ n = "B" ∨ n = "C" then some 1 else none⟩

/-- Example one-seat party `P`. -/
def pP : Party := ⟨"P", 1⟩

/-- Example one-seat party `Q`. -/
def pQ : Party := ⟨"Q", 1⟩

/-- Example one-seat party `R`. -/
def pR : Party := ⟨"R", 1⟩

/-- A statement splitting the one-seat parties over the three buckets:
positions `{P: 1, Q: 0, R: -1}`. -/
def exStSplit : Statement :=
  ⟨fun n => if n = "P" then some 1 else if n = "Q" then some 0
    else if n = "R" then some (-1) else none⟩

/-- Example ten-seat party `D`, carrying an out-of-range stance below. -/
def pD : Party := ⟨"D", 10⟩

/-- A statement with a recorded stance of `5` (outside `{-1, 0, 1}`) for
`D` and nothing else. -/
def exStOdd : Statement := ⟨fun n => if n = "D" then some 5 else none⟩

/-!
General helper lemmas about the embedded definitions.
-/

/-- Folding the seat sum from any accumulator. -/
theorem sumSeats_foldl (coalition : List Party) (a : Nat) :
    coalition.foldl (fun sum p => sum + p.seats) a
      = a + (coalition.map Party.seats).sum := by
  induction coalition generalizing a with
  | nil => simp
  | cons p rest ih => simp [ih, Nat.add_assoc]

/-- The seat sum is the sum of the seat fields. -/
theorem sumSeats_eq (coalition : List Party) :
    sumSeats coalition = (coalition.map Party.seats).sum := by
  simp [sumSeats, sumSeats_foldl]

/-- Folding the agreement score from any accumulator. -/
theorem totalAgreementScore_foldl (statements : List Statement)
    (coalition : List Party) (a : ℚ) :
    statements.foldl (fun acc st => acc + statementAgreement st coalition) a
      = a + (statements.map (fun st => statementAgreement st coalition)).sum := by
  induction statements generalizing a with
  | nil => simp
  | cons st rest ih => simp [ih, add_assoc]

/-- The total agreement score is the sum of the per-statement agreements. -/
theorem totalAgreementScore_eq (statements : List Statement)
    (coalition : List Party) :
    totalAgreementScore statements coalition
      = (statements.map (fun st => statementAgreement st coalition)).sum := by
  simp [totalAgreementScore, totalAgreementScore_foldl]

/-!
Claim C1 — majority filter correctness.
-/

/-- C1: every coalition returned by `generateMajorityCoalitions` has a seat
total of at least 76; no subset summing below 76 ever appears in the list. -/
theorem majority_filter_correct (parties : List Party)
    (requiredPartyName : Option String) (c : List Party)
    (hc : c ∈ generateMajorityCoalitions parties requiredPartyName) :
    76 ≤ sumSeats c := by
  unfold generateMajorityCoalitions at hc
  cases requiredPartyName with
  | none =>
    simp at hc
    obtain ⟨size, -, -, h76⟩ := hc
    exact h76
  | some nm =>
    simp at hc
    obtain ⟨-, size, -, combo, -, h76, heq⟩ := hc
    exact heq ▸ h76

/-- C1 witness: the theorem applied to the concrete roster `[A, B, C]`. -/
theorem majority_filter_correct_witness :
    [pA, pB] ∈ generateMajorityCoalitions [pA, pB, pC] none
      ∧ 76 ≤ sumSeats [pA, pB] :=
  ⟨by decide, majority_filter_correct [pA, pB, pC] none [pA, pB] (by decide)⟩

/-!
Claim C3 — required-party handling.
-/

/-- C3: with a required party name that matches no roster party the result
is the empty list (not an error), and every returned coalition contains a
party with the required name. -/
theorem required_party_inclusion (parties : List Party) (nm : String) :
    ((∀ p ∈ parties, p.name ≠ nm)
        → generateMajorityCoalitions parties (some nm) = [])
      ∧ (∀ c ∈ generateMajorityCoalitions parties (some nm),
          ∃ q ∈ c, q.name = nm) := by
  constructor
  · intro hnone
    unfold generateMajorityCoalitions
    have hfil : parties.filter (fun p => p.name == nm) = [] := by
      apply List.filter_eq_nil_iff.mpr
      intro p hp
      simpa using hnone p hp
    simp [hfil]
  · intro c hc
    unfold generateMajorityCoalitions at hc
    simp at hc
    obtain ⟨⟨x, hx, hxnm⟩, size, -, combo, -, -, rfl⟩ := hc
    refine ⟨x, ?_, hxnm⟩
    exact List.mem_append_left _ (List.mem_filter.mpr ⟨hx, by simpa using hxnm⟩)

/-- C3 witness: name `X` matches nobody in `[A, B, C]` (empty result), and
the coalition `[B, A]` returned for required name `B` contains `B`. -/
theorem required_party_inclusion_witness :
    ((∀ p ∈ [pA, pB, pC], p.name ≠ "X")
        ∧ generateMajorityCoalitions [pA, pB, pC] (some "X") = [])
      ∧ ([pB, pA] ∈ generateMajorityCoalitions [pA, pB, pC] (some "B")
        ∧ ∃ q ∈ [pB, pA], q.name = "B") :=
  ⟨⟨by decide, (required_party_inclusion [pA, pB, pC] "X").1 (by decide)⟩,
    ⟨by decide, (required_party_inclusion [pA, pB, pC] "B").2 [pB, pA] (by decide)⟩⟩

/-!
Claim C10 — single-party coalitions are enumerated.
-/

/-- C10: with no required party, the size loop starts at 1 over the full
roster, so any roster party holding at least 76 seats appears by itself as
a one-party coalition in the output. -/
theorem single_party_coalition (parties : List Party) (p : Party)
    (hp : p ∈ parties) (hseats : 76 ≤ p.seats) :
    [p] ∈ generateMajorityCoalitions parties none := by
  unfold generateMajorityCoalitions
  simp only [Option.isSome_none, Bool.false_and, if_neg Bool.false_ne_true]
  simp only [List.mem_flatMap, List.mem_filterMap]
  refine ⟨1, ?_, ?_⟩
  · have hlen : 0 < parties.length := List.length_pos.mpr (List.ne_nil_of_mem hp)
    have : 0 < min (5 - List.length ([] : List Party)) parties.length := by
      simp [hlen]
    refine List.mem_range'.mpr ⟨0, ?_, ?_⟩ <;> omega
  · refine ⟨[p], ?_, ?_⟩
    · simpa [getCombinations, getCombinationsAux]
        using List.mem_map_of_mem (fun item => [item]) hp
    · have : sumSeats ([] ++ [p]) = p.seats := by simp [sumSeats]
      rw [if_pos (by omega)]
      simp

/-- C10 witness: party `A` alone holds 76 seats and is returned as a
one-party coalition. -/
theorem single_party_coalition_witness :
    (pA ∈ [pA, pB, pC] ∧ 76 ≤ pA.seats)
      ∧ [pA] ∈ generateMajorityCoalitions [pA, pB, pC] none :=
  ⟨⟨by decide, by decide⟩, single_party_coalition [pA, pB, pC] pA (by decide) (by decide)⟩

/-!
Claim C2 — combination completeness.  The key fact is that for a positive
size the output of `getCombinations` is a permutation of
`List.sublistsLen`, whose counting, membership and duplicate-freeness
theory Mathlib provides.
-/

/-- For positive sizes, `getCombinations arr size` is a rearrangement of
the length-`size` sublists of `arr`. -/
theorem getCombinations_perm_sublistsLen (arr : List Party) (k : Nat) :
    (getCombinations arr (k + 1)).Perm (List.sublistsLen (k + 1) arr) := by
  induction arr generalizing k with
  | nil => cases k <;> simp [getCombinations, getCombinationsAux, combLoop]
  | cons h rest ih =>
    cases k with
    | zero =>
      have h1 : getCombinations (h :: rest) 1
          = [h] :: rest.map (fun item => [item]) := by
        simp [getCombinations, getCombinationsAux]
      rw [h1, List.sublistsLen_succ_cons, List.sublistsLen_zero]
      refine ((ih 0).cons [h]).trans ?_
      refine ((List.perm_append_singleton [h] (List.sublistsLen 1 rest)).symm).trans ?_
      simp
    | succ k =>
      have h2 : getCombinations (h :: rest) (k + 2)
          = ((getCombinations rest (k + 1)).map (fun tail => h :: tail))
            ++ getCombinations rest (k + 2) := by
        simp [getCombinations, getCombinationsAux, combLoop]
      rw [h2, List.sublistsLen_succ_cons]
      refine (((ih k).map _).append (ih (k + 1))).trans ?_
      exact List.perm_append_comm

/-- Two sublists of a duplicate-free list that contain the same elements
are equal: selections from a `Nodup` list are determined by their element
sets. -/
theorem sublist_eq_of_perm_of_nodup {arr c₁ c₂ : List Party}
    (hnd : arr.Nodup) (h₁ : c₁.Sublist arr) (h₂ : c₂.Sublist arr)
    (hp : c₁.Perm c₂) : c₁ = c₂ := by
  induction arr generalizing c₁ c₂ with
  | nil =>
    rw [List.sublist_nil.mp h₁, List.sublist_nil.mp h₂]
  | cons a l ih =>
    have ha : a ∉ l := (List.nodup_cons.mp hnd).1
    have hl : l.Nodup := (List.nodup_cons.mp hnd).2
    rcases List.sublist_cons_iff.mp h₁ with hc₁ | ⟨r₁, rfl, hr₁⟩
    · rcases List.sublist_cons_iff.mp h₂ with hc₂ | ⟨r₂, rfl, hr₂⟩
      · exact ih hl hc₁ hc₂ hp
      · exfalso
        exact ha (hc₁.subset (hp.symm.subset (List.mem_cons_self a r₂)))
    · rcases List.sublist_cons_iff.mp h₂ with hc₂ | ⟨r₂, rfl, hr₂⟩
      · exfalso
        exact ha (hc₂.subset (hp.subset (List.mem_cons_self a r₁)))
      · rw [ih hl hr₁ hr₂ hp.cons_inv]

/-- C2: on a duplicate-free roster, `getCombinations arr k` with
`1 ≤ k ≤ arr.length` produces exactly `C(n, k)` subsets: its length is the
binomial coefficient, it has no duplicate entries, its members are exactly
the `k`-element selections of `arr` (in roster order), and no two distinct
entries are rearrangements of the same subset. -/
theorem combination_completeness (arr : List Party) (k : Nat)
    (hnd : arr.Nodup) (hk : 1 ≤ k) (hkn : k ≤ arr.length) :
    (getCombinations arr k).length = (arr.length).choose k
      ∧ (getCombinations arr k).Nodup
      ∧ (∀ c, c ∈ getCombinations arr k ↔ c.Sublist arr ∧ c.length = k)
      ∧ (∀ c₁ c₂, c₁ ∈ getCombinations arr k → c₂ ∈ getCombinations arr k
          → c₁.Perm c₂ → c₁ = c₂) := by
  obtain ⟨k, rfl⟩ : ∃ m, k = m + 1 := ⟨k - 1, by omega⟩
  have hperm := getCombinations_perm_sublistsLen arr k
  have hmem : ∀ c, c ∈ getCombinations arr (k + 1)
      ↔ c.Sublist arr ∧ c.length = k + 1 := by
    intro c
    rw [hperm.mem_iff, List.mem_sublistsLen]
  refine ⟨?_, ?_, hmem, ?_⟩
  · rw [hperm.length_eq, List.length_sublistsLen]
  · exact hperm.nodup_iff.mpr (List.nodup_sublistsLen _ hnd)
  · intro c₁ c₂ h₁ h₂ hp
    exact sublist_eq_of_perm_of_nodup hnd ((hmem c₁).mp h₁).1 ((hmem c₂).mp h₂).1 hp

/-- C2 witness: the theorem applied to the three-party roster with
`k = 2`; `getCombinations` indeed lists the three 2-subsets once each. -/
theorem combination_completeness_witness :
    ([pA, pB, pC].Nodup ∧ 1 ≤ 2 ∧ 2 ≤ [pA, pB, pC].length)
      ∧ (getCombinations [pA, pB, pC] 2).length = Nat.choose 3 2
      ∧ (getCombinations [pA, pB, pC] 2).Nodup :=
  ⟨⟨by decide, by decide, by decide⟩,
    (combination_completeness [pA, pB, pC] 2 (by decide) (by decide) (by decide)).1,
    (combination_completeness [pA, pB, pC] 2 (by decide) (by decide) (by decide)).2.1⟩

/-!
Helper lemmas about the scorer: bounds on the per-statement agreement,
behaviour of the rounding step, and a closed form for `agreementRate` on a
non-empty statement list.
-/

/-- The largest bucket never exceeds the bucket total. -/
theorem maxSeatsOf_le_totalSeatsOf (st : Statement) (c : List Party) :
    maxSeatsOf st c ≤ totalSeatsOf st c := by
  unfold maxSeatsOf totalSeatsOf
  omega

/-- The majority fraction is at most 1 whenever any seats were tallied. -/
theorem majorityFraction_le_one (st : Statement) (c : List Party)
    (h : totalSeatsOf st c ≠ 0) : majorityFraction st c ≤ 1 := by
  unfold majorityFraction
  rw [div_le_one (by exact_mod_cast Nat.pos_of_ne_zero h)]
  exact_mod_cast maxSeatsOf_le_totalSeatsOf st c

/-- A statement's agreement contribution is non-negative. -/
theorem statementAgreement_nonneg (st : Statement) (c : List Party) :
    0 ≤ statementAgreement st c := by
  unfold statementAgreement
  split
  · exact le_refl 0
  · exact le_max_left 0 _

/-- A statement's agreement contribution is at most 1. -/
theorem statementAgreement_le_one (st : Statement) (c : List Party) :
    statementAgreement st c ≤ 1 := by
  unfold statementAgreement
  split
  · exact zero_le_one
  · rename_i h
    refine max_le zero_le_one ?_
    have := majorityFraction_le_one st c h
    linarith

/-- The accumulated agreement score lies between 0 and the statement count. -/
theorem totalAgreementScore_bounds (statements : List Statement)
    (c : List Party) :
    0 ≤ totalAgreementScore statements c
      ∧ totalAgreementScore statements c ≤ (statements.length : ℚ) := by
  rw [totalAgreementScore_eq]
  constructor
  · apply List.sum_nonneg
    intro x hx
    obtain ⟨st, -, rfl⟩ := List.mem_map.mp hx
    exact statementAgreement_nonneg st c
  · calc (statements.map (fun st => statementAgreement st c)).sum
        ≤ (statements.map (fun st => statementAgreement st c)).length • (1 : ℚ) := by
          apply List.sum_le_card_nsmul
          intro x hx
          obtain ⟨st, -, rfl⟩ := List.mem_map.mp hx
          exact statementAgreement_le_one st c
      _ = (statements.length : ℚ) := by simp

/-- The size penalty is non-negative. -/
theorem sizePenalty_nonneg (c : List Party) : 0 ≤ sizePenalty c :=
  le_max_left 0 _

/-- The size penalty never shrinks when the coalition grows. -/
theorem sizePenalty_mono {c₁ c₂ : List Party}
    (h : c₁.length ≤ c₂.length) : sizePenalty c₁ ≤ sizePenalty c₂ := by
  unfold sizePenalty
  apply max_le_max (le_refl 0)
  have hc : (c₁.length : ℚ) ≤ (c₂.length : ℚ) := by exact_mod_cast h
  nlinarith

/-- Rounding to one decimal is monotone. -/
theorem round1_mono {q r : ℚ} (h : q ≤ r) : round1 q ≤ round1 r := by
  unfold round1 jsRound
  have hf : (⌊q * 10 + 1/2⌋ : ℤ) ≤ ⌊r * 10 + 1/2⌋ := Int.floor_mono (by linarith)
  have : ((⌊q * 10 + 1/2⌋ : ℤ) : ℚ) ≤ ((⌊r * 10 + 1/2⌋ : ℤ) : ℚ) := by
    exact_mod_cast hf
  linarith

/-- Rounding fixes 0. -/
theorem round1_zero : round1 0 = 0 := by
  norm_num [round1, jsRound]

/-- Rounding fixes 100. -/
theorem round1_hundred : round1 100 = 100 := by
  norm_num [round1, jsRound]

/-- Closed form of `agreementRate` when the statement list is non-empty
(the only case in which the division by `totalStatements` is defined). -/
theorem agreementRate_closed_form (statements : List Statement)
    (c : List Party) (h : statements.length ≠ 0) :
    (calculateCoalitionAgreement statements c).agreementRate
      = some (round1 (max 0
          (totalAgreementScore statements c / (statements.length : ℚ)
            - sizePenalty c) * 100)) := by
  simp [calculateCoalitionAgreement, averageAgreementQ, h]

/-!
Claim C5 — score boundedness.  The claim quantifies over every statement
set "including an empty statement set", but the source divides by
`statements.length` unconditionally, so an empty statement set produces
`0 / 0 = NaN` which then flows through `Math.max`, the multiplication and
`Math.round` into every rational field of the returned score.  The claim
is therefore false as stated; it holds for non-empty statement sets, and
the zero-recorded-stance case does yield 0.
-/

/-- C5 counterexample: on an empty statement set the scorer returns `NaN`
(modelled as `none`) for `agreementRate` — not a number in `[0, 100]`. -/
theorem score_boundedness_counterexample :
    (calculateCoalitionAgreement [] [pA]).agreementRate = none
      ∧ (calculateCoalitionAgreement [] [pA]).averageAgreement = none
      ∧ (calculateCoalitionAgreement [] [pA]).adjustedAgreement = none :=
  ⟨rfl, rfl, rfl⟩

/-- C5 amended: for every NON-EMPTY statement set, `agreementRate` is a
number in `[0, 100]`; and when the coalition has no recorded stance on any
statement the result is exactly 0. -/
theorem score_bounded_nonempty (statements : List Statement)
    (coalition : List Party) (hlen : 0 < statements.length) :
    (∃ q, (calculateCoalitionAgreement statements coalition).agreementRate
          = some q ∧ 0 ≤ q ∧ q ≤ 100)
      ∧ ((∀ st ∈ statements, totalSeatsOf st coalition = 0)
          → (calculateCoalitionAgreement statements coalition).agreementRate
              = some 0) := by
  have hne : statements.length ≠ 0 := hlen.ne'
  have hnq : (0 : ℚ) < (statements.length : ℚ) := by exact_mod_cast hlen
  constructor
  · refine ⟨_, agreementRate_closed_form statements coalition hne, ?_, ?_⟩
    · have h0 : round1 0 ≤ round1 (max 0
          (totalAgreementScore statements coalition / (statements.length : ℚ)
            - sizePenalty coalition) * 100) := by
        apply round1_mono
        have := le_max_left (0 : ℚ)
          (totalAgreementScore statements coalition / (statements.length : ℚ)
            - sizePenalty coalition)
        nlinarith [this]
      rw [round1_zero] at h0
      exact h0
    · have havg : totalAgreementScore statements coalition
          / (statements.length : ℚ) ≤ 1 := by
        rw [div_le_one hnq]
        exact (totalAgreementScore_bounds statements coalition).2
      have hadj : max 0 (totalAgreementScore statements coalition
          / (statements.length : ℚ) - sizePenalty coalition) ≤ 1 := by
        refine max_le zero_le_one ?_
        have := sizePenalty_nonneg coalition
        linarith
      have h100 : round1 (max 0
          (totalAgreementScore statements coalition / (statements.length : ℚ)
            - sizePenalty coalition) * 100) ≤ round1 100 := by
        apply round1_mono
        nlinarith [le_max_left (0 : ℚ)
          (totalAgreementScore statements coalition / (statements.length : ℚ)
            - sizePenalty coalition)]
      rw [round1_hundred] at h100
      exact h100
  · intro hz
    have hts : totalAgreementScore statements coalition = 0 := by
      rw [totalAgreementScore_eq]
      apply List.sum_eq_zero
      intro x hx
      obtain ⟨st, hst, rfl⟩ := List.mem_map.mp hx
      unfold statementAgreement
      rw [if_pos (hz st hst)]
    rw [agreementRate_closed_form statements coalition hne, hts]
    have : max 0 (0 / (statements.length : ℚ) - sizePenalty coalition) = 0 := by
      rw [zero_div, zero_sub, max_eq_left ?_]
      simpa using sizePenalty_nonneg coalition
    rw [this]
    rw [zero_mul, round1_zero]

/-- C5 amended witness: the two-party coalition on the example statement
scores inside `[0, 100]`, and the stance-less party `Z` scores exactly 0. -/
theorem score_bounded_nonempty_witness :
    (0 < [exSt].length
      ∧ ∃ q, (calculateCoalitionAgreement [exSt] [pA, pB]).agreementRate
          = some q ∧ 0 ≤ q ∧ q ≤ 100)
      ∧ ((∀ st ∈ [exSt], totalSeatsOf st [pZ] = 0)
        ∧ (calculateCoalitionAgreement [exSt] [pZ]).agreementRate = some 0) :=
  ⟨⟨by decide, (score_bounded_nonempty [exSt] [pA, pB] (by decide)).1⟩,
    ⟨by decide, (score_bounded_nonempty [exSt] [pZ] (by decide)).2 (by decide)⟩⟩

/-!
Claim C6 — stance bucket exclusion and the averaging denominator.
-/

/-- A stance outside `{some 1, some 0, some (-1)}` leaves the accumulator
unchanged: the party's seats land in no bucket. -/
theorem tallyStep_other (stance : Option ℤ) (seats : Nat)
    (acc : Nat × Nat × Nat) (h1 : stance ≠ some 1) (h0 : stance ≠ some 0)
    (hm : stance ≠ some (-1)) : tallyStep stance seats acc = acc := by
  unfold tallyStep
  split
  · exact absurd rfl h1
  · exact absurd rfl h0
  · exact absurd rfl hm
  · rfl

/-- C6: a coalition party whose stance on a statement is missing or
outside `{-1, 0, 1}` contributes its seats to no bucket (removing it from
the coalition leaves the tally unchanged); a statement with a zero seat
tally contributes 0 to the agreement sum; and the averaging denominator
`totalStatements` is always the full statement count. -/
theorem stance_bucket_exclusion :
    (∀ (st : Statement) (c₁ c₂ : List Party) (p : Party),
        st.positions p.name ≠ some 1 → st.positions p.name ≠ some 0
          → st.positions p.name ≠ some (-1)
          → stanceTally st (c₁ ++ p :: c₂) = stanceTally st (c₁ ++ c₂))
      ∧ (∀ (st : Statement) (c : List Party),
          totalSeatsOf st c = 0 → statementAgreement st c = 0)
      ∧ (∀ (statements : List Statement) (c : List Party),
          (calculateCoalitionAgreement statements c).totalStatements
            = statements.length) := by
  refine ⟨?_, ?_, ?_⟩
  · intro st c₁ c₂ p h1 h0 hm
    unfold stanceTally
    rw [List.foldl_append, List.foldl_append, List.foldl_cons,
      tallyStep_other (st.positions p.name) p.seats _ h1 h0 hm]
  · intro st c h
    unfold statementAgreement
    rw [if_pos h]
  · intro statements c
    rfl

/-- C6 witness: party `D` has the recorded stance `5` on `exStOdd`, lands
in no bucket, and dropping it from the coalition leaves the tally intact;
the stance-less coalition `[Z]` contributes agreement 0 on `exSt` while
`totalStatements` still counts the statement. -/
theorem stance_bucket_exclusion_witness :
    (exStOdd.positions pD.name ≠ some 1 ∧ exStOdd.positions pD.name ≠ some 0
      ∧ exStOdd.positions pD.name ≠ some (-1)
      ∧ stanceTally exStOdd ([pA] ++ pD :: [pB]) = stanceTally exStOdd ([pA] ++ [pB]))
      ∧ (totalSeatsOf exSt [pZ] = 0 ∧ statementAgreement exSt [pZ] = 0)
      ∧ (calculateCoalitionAgreement [exSt] [pZ]).totalStatements = [exSt].length :=
  ⟨⟨by decide, by decide, by decide,
      stance_bucket_exclusion.1 exStOdd [pA] [pB] pD (by decide) (by decide) (by decide)⟩,
    ⟨by decide, stance_bucket_exclusion.2.1 exSt [pZ] (by decide)⟩,
    stance_bucket_exclusion.2.2 [exSt] [pZ]⟩

/-!
Claim C8 — the claimed lower bound of 0.5 on the majority fraction is
wrong: with all three buckets non-empty the largest bucket can hold as
little as a third of the tallied seats, and the `Math.max(0, ·)` clamp
then does take effect.  The bound that actually holds is 1/3, and 1/2
holds exactly when some bucket is empty.
-/

/-- C8 counterexample: on the three-way-split statement the majority
fraction is below 1/2, the pre-clamp statement agreement is negative, and
the clamp fires (the contribution is 0). -/
theorem majority_fraction_counterexample :
    0 < totalSeatsOf exStSplit [pP, pQ, pR]
      ∧ majorityFraction exStSplit [pP, pQ, pR] < 1/2
      ∧ (majorityFraction exStSplit [pP, pQ, pR] - 1/2) / (1/2) < 0
      ∧ statementAgreement exStSplit [pP, pQ, pR] = 0 := by
  have ht : stanceTally exStSplit [pP, pQ, pR] = (1, 1, 1) := by decide
  have hmf : majorityFraction exStSplit [pP, pQ, pR] = 1/3 := by
    norm_num [majorityFraction, maxSeatsOf, totalSeatsOf, ht]
  refine ⟨by decide, ?_, ?_, ?_⟩
  · rw [hmf]; norm_num
  · rw [hmf]; norm_num
  · unfold statementAgreement
    rw [if_neg (by decide), hmf]
    norm_num

/-- C8 amended: whenever seats were tallied the majority fraction is at
least 1/3; it is at least 1/2 whenever at least one of the three buckets
is empty (in particular the clamp is idle then), but not in general. -/
theorem majority_fraction_bounds (st : Statement) (c : List Party)
    (h : 0 < totalSeatsOf st c) :
    (1/3 : ℚ) ≤ majorityFraction st c
      ∧ (((stanceTally st c).1 = 0 ∨ (stanceTally st c).2.1 = 0
            ∨ (stanceTally st c).2.2 = 0)
          → (1/2 : ℚ) ≤ majorityFraction st c) := by
  have hT : (0 : ℚ) < (totalSeatsOf st c : ℚ) := by exact_mod_cast h
  constructor
  · have hM : totalSeatsOf st c ≤ 3 * maxSeatsOf st c := by
      unfold maxSeatsOf totalSeatsOf
      omega
    rw [majorityFraction, le_div_iff₀ hT]
    have h3 : (totalSeatsOf st c : ℚ) ≤ 3 * (maxSeatsOf st c : ℚ) := by
      exact_mod_cast hM
    linarith
  · intro hz
    have hM2 : totalSeatsOf st c ≤ 2 * maxSeatsOf st c := by
      unfold maxSeatsOf totalSeatsOf
      rcases hz with h | h | h <;> omega
    rw [majorityFraction, le_div_iff₀ hT]
    have h2 : (totalSeatsOf st c : ℚ) ≤ 2 * (maxSeatsOf st c : ℚ) := by
      exact_mod_cast hM2
    linarith

/-- C8 amended witness: the all-agree statement over `[A, B]` has a seat
tally with two empty buckets, so the fraction is at least 1/2 (indeed 1). -/
theorem majority_fraction_bounds_witness :
    (0 < totalSeatsOf exStAll [pA, pB]
      ∧ (1/3 : ℚ) ≤ majorityFraction exStAll [pA, pB])
      ∧ (((stanceTally exStAll [pA, pB]).1 = 0
            ∨ (stanceTally exStAll [pA, pB]).2.1 = 0
            ∨ (stanceTally exStAll [pA, pB]).2.2 = 0)
        ∧ (1/2 : ℚ) ≤ majorityFraction exStAll [pA, pB]) :=
  ⟨⟨by decide, (majority_fraction_bounds exStAll [pA, pB] (by decide)).1⟩,
    ⟨by decide, (majority_fraction_bounds exStAll [pA, pB] (by decide)).2 (by decide)⟩⟩

/-!
Claim C7 — the size penalty.  The penalty is
`Math.max(0, (coalitionSize - 2) * 0.05)`, so coalitions of size 1 and 2
carry the same penalty 0: for them the claimed "exactly 5 percentage
points per extra party" difference fails.  It holds once the smaller
coalition already has at least two parties.
-/

/-- The ranking quantity before the `Math.max(0, ·)` clamp of
`adjustedAgreement`, scaled to percentage points:
`(averageAgreement - sizePenalty) * 100` (reading a `NaN` average as 0;
the claims only use it with non-empty statement lists). -/
def preClampRate (statements : List Statement) (coalition : List Party) : ℚ :=
  ((averageAgreementQ statements coalition).getD 0 - sizePenalty coalition) * 100

/-- On the all-agree statement a one-party coalition scores average 1. -/
theorem avg_all_A : averageAgreementQ [exStAll] [pA] = some 1 := by
  have h1 : stanceTally exStAll [pA] = (76, 0, 0) := by decide
  norm_num [averageAgreementQ, totalAgreementScore, statementAgreement,
    totalSeatsOf, maxSeatsOf, majorityFraction, h1, max_def]

/-- On the all-agree statement the pair `[A, B]` also scores average 1. -/
theorem avg_all_AB : averageAgreementQ [exStAll] [pA, pB] = some 1 := by
  have h1 : stanceTally exStAll [pA, pB] = (116, 0, 0) := by decide
  norm_num [averageAgreementQ, totalAgreementScore, statementAgreement,
    totalSeatsOf, maxSeatsOf, majorityFraction, h1, max_def]

/-- C7 counterexample: coalitions `[A]` and `[A, B]` have identical
average agreement and different sizes, yet their pre-clamp rates are
equal — the difference is 0, not `5 × (size difference)`. -/
theorem size_penalty_counterexample :
    averageAgreementQ [exStAll] [pA] = averageAgreementQ [exStAll] [pA, pB]
      ∧ [pA].length < [pA, pB].length
      ∧ preClampRate [exStAll] [pA] - preClampRate [exStAll] [pA, pB] = 0
      ∧ (5 : ℚ) * (([pA, pB].length : ℚ) - ([pA].length : ℚ)) ≠ 0 := by
  refine ⟨avg_all_A.trans avg_all_AB.symm, by decide, ?_, by norm_num⟩
  rw [preClampRate, preClampRate, avg_all_A, avg_all_AB]
  norm_num [sizePenalty, max_def]

/-- C7 amended: with identical average agreement, the larger coalition's
`agreementRate` is at most the smaller one's; and the pre-clamp rates
differ by exactly `5 × (size difference)` percentage points provided the
smaller coalition already has at least 2 parties (below that both
penalties vanish). -/
theorem size_penalty_monotone (statements : List Statement)
    (c₁ c₂ : List Party)
    (havg : averageAgreementQ statements c₁ = averageAgreementQ statements c₂)
    (hlen : c₁.length ≤ c₂.length) :
    (0 < statements.length →
        ∃ r₁ r₂, (calculateCoalitionAgreement statements c₁).agreementRate = some r₁
          ∧ (calculateCoalitionAgreement statements c₂).agreementRate = some r₂
          ∧ r₂ ≤ r₁)
      ∧ (2 ≤ c₁.length →
          preClampRate statements c₁ - preClampRate statements c₂
            = 5 * ((c₂.length : ℚ) - (c₁.length : ℚ))) := by
  constructor
  · intro hpos
    have hne : statements.length ≠ 0 := hpos.ne'
    have havg' : totalAgreementScore statements c₁ / (statements.length : ℚ)
        = totalAgreementScore statements c₂ / (statements.length : ℚ) := by
      have := havg
      unfold averageAgreementQ at this
      rw [if_neg hne, if_neg hne] at this
      exact Option.some.inj this
    refine ⟨_, _, agreementRate_closed_form statements c₁ hne,
      agreementRate_closed_form statements c₂ hne, ?_⟩
    apply round1_mono
    rw [← havg']
    have hpen := sizePenalty_mono hlen
    have hmax : max 0 (totalAgreementScore statements c₁ / (statements.length : ℚ)
          - sizePenalty c₂)
        ≤ max 0 (totalAgreementScore statements c₁ / (statements.length : ℚ)
          - sizePenalty c₁) := max_le_max le_rfl (by linarith)
    nlinarith [hmax]
  · intro h2
    have h2' : 2 ≤ c₂.length := le_trans h2 hlen
    have e₁ : sizePenalty c₁ = ((c₁.length : ℚ) - 2) * (5 / 100) := by
      apply max_eq_right
      have : (2 : ℚ) ≤ (c₁.length : ℚ) := by exact_mod_cast h2
      nlinarith
    have e₂ : sizePenalty c₂ = ((c₂.length : ℚ) - 2) * (5 / 100) := by
      apply max_eq_right
      have : (2 : ℚ) ≤ (c₂.length : ℚ) := by exact_mod_cast h2'
      nlinarith
    unfold preClampRate
    rw [havg, e₁, e₂]
    ring

/-- C7 amended witness: `[A, B]` against `[A, B, C]` on the all-agree
statement — equal averages, sizes 2 and 3, rates ordered, and the
pre-clamp difference is exactly 5 points. -/
theorem size_penalty_monotone_witness :
    (averageAgreementQ [exStAll] [pA, pB] = averageAgreementQ [exStAll] [pA, pB, pC]
      ∧ [pA, pB].length ≤ [pA, pB, pC].length ∧ 0 < [exStAll].length
      ∧ 2 ≤ [pA, pB].length)
      ∧ (∃ r₁ r₂, (calculateCoalitionAgreement [exStAll] [pA, pB]).agreementRate = some r₁
          ∧ (calculateCoalitionAgreement [exStAll] [pA, pB, pC]).agreementRate = some r₂
          ∧ r₂ ≤ r₁)
      ∧ preClampRate [exStAll] [pA, pB] - preClampRate [exStAll] [pA, pB, pC]
          = 5 * (([pA, pB, pC].length : ℚ) - ([pA, pB].length : ℚ)) := by
  have havg : averageAgreementQ [exStAll] [pA, pB]
      = averageAgreementQ [exStAll] [pA, pB, pC] := by
    have h1 : stanceTally exStAll [pA, pB, pC] = (150, 0, 0) := by decide
    rw [avg_all_AB]
    norm_num [averageAgreementQ, totalAgreementScore, statementAgreement,
      totalSeatsOf, maxSeatsOf, majorityFraction, h1, max_def]
  exact ⟨⟨havg, by decide, by decide, by decide⟩,
    (size_penalty_monotone [exStAll] [pA, pB] [pA, pB, pC] havg (by decide)).1 (by decide),
    (size_penalty_monotone [exStAll] [pA, pB] [pA, pB, pC] havg (by decide)).2 (by decide)⟩

/-!
Claim C4 — the continuous-weighted formula and the worked examples.  The
general formula matches the code, and the first worked example does too,
but the second one does not: for positions `{A: 1, B: 1, C: -1}` and the
coalition `{A, B, C}` the agree bucket holds A and B (116 seats) over a
150-seat tally, giving 49.7 — the spec's 33.2 corresponds to a tally in
which `B` has no recorded stance (its own `agreeSeats = 76`,
`totalSeats = 110` say as much).
-/

/-- Folding the tally from an arbitrary accumulator equals adding the
bucket-filtered seat sums componentwise. -/
theorem stanceTally_foldl (st : Statement) (c : List Party)
    (acc : Nat × Nat × Nat) :
    c.foldl (fun a p => tallyStep (st.positions p.name) p.seats a) acc
      = (acc.1 + ((c.filter (fun p => st.positions p.name == some 1)).map Party.seats).sum,
         acc.2.1 + ((c.filter (fun p => st.positions p.name == some 0)).map Party.seats).sum,
         acc.2.2 + ((c.filter (fun p => st.positions p.name == some (-1))).map Party.seats).sum) := by
  induction c generalizing acc with
  | nil => simp
  | cons p rest ih =>
    rw [List.foldl_cons, ih]
    rcases hpos : st.positions p.name with _ | v
    · simp [tallyStep, hpos]
    · by_cases h1 : v = 1
      · subst h1
        simp [tallyStep, hpos, Nat.add_assoc]
      · by_cases h0 : v = 0
        · subst h0
          simp [tallyStep, hpos, Nat.add_assoc]
        · by_cases hm : v = -1
          · subst hm
            simp [tallyStep, hpos, Nat.add_assoc]
          · have hstep : tallyStep (some v) p.seats acc = acc :=
              tallyStep_other _ _ _ (by simp [h1]) (by simp [h0]) (by simp [hm])
            simp [hpos, hstep, h1, h0, hm]

/-- The bucket tally equals the triple of bucket-filtered seat sums. -/
theorem stanceTally_eq_filterSums (st : Statement) (c : List Party) :
    stanceTally st c
      = (((c.filter (fun p => st.positions p.name == some 1)).map Party.seats).sum,
         ((c.filter (fun p => st.positions p.name == some 0)).map Party.seats).sum,
         ((c.filter (fun p => st.positions p.name == some (-1))).map Party.seats).sum) := by
  simpa [stanceTally] using stanceTally_foldl st c (0, 0, 0)

/-- The continuous-weighted per-statement score exactly as the claim words
it: seat buckets as seat sums over the parties holding each stance, the
majority fraction of the largest bucket, and the affine rescaling with its
clamp at 0. -/
def specStatementAgreement (st : Statement) (coalition : List Party) : ℚ :=
  let agreeSeats :=
    ((coalition.filter (fun p => st.positions p.name == some 1)).map Party.seats).sum
  let neutralSeats :=
    ((coalition.filter (fun p => st.positions p.name == some 0)).map Party.seats).sum
  let disagreeSeats :=
    ((coalition.filter (fun p => st.positions p.name == some (-1))).map Party.seats).sum
  let totalSeats := agreeSeats + neutralSeats + disagreeSeats
  if totalSeats = 0 then 0
  else max 0 (((max agreeSeats (max neutralSeats disagreeSeats) : ℚ) / (totalSeats : ℚ)
    - 1/2) / (1/2))

/-- The claim's whole-coalition formula: statement scores averaged over
the statement count, the size penalty subtracted, clamped at 0, scaled to
a percentage and rounded to one decimal. -/
def specAgreementRate (statements : List Statement) (coalition : List Party) : ℚ :=
  let averageAgreement :=
    (statements.map (fun st => specStatementAgreement st coalition)).sum
      / (statements.length : ℚ)
  let penalty := max 0 (((coalition.length : ℚ) - 2) * (5 / 100))
  round1 (max 0 (averageAgreement - penalty) * 100)

/-- The spec-worded statement score agrees with the implementation's. -/
theorem specStatementAgreement_eq (st : Statement) (c : List Party) :
    specStatementAgreement st c = statementAgreement st c := by
  simp only [specStatementAgreement, statementAgreement, totalSeatsOf,
    maxSeatsOf, majorityFraction, stanceTally_eq_filterSums, Nat.cast_max]

/-- Implementation agreement rate at the spec example `{A, B}`. -/
theorem rate_exSt_AB :
    (calculateCoalitionAgreement [exSt] [pA, pB]).agreementRate = some 100 := by
  have ht : stanceTally exSt [pA, pB] = (116, 0, 0) := by decide
  rw [agreementRate_closed_form [exSt] [pA, pB] (by decide)]
  norm_num [totalAgreementScore, statementAgreement, totalSeatsOf, maxSeatsOf,
    majorityFraction, ht, sizePenalty, max_def, round1, jsRound]

/-- Implementation agreement rate at the spec example `{A, B, C}`: 49.7,
not the 33.2 the spec's arithmetic announces. -/
theorem rate_exSt_ABC :
    (calculateCoalitionAgreement [exSt] [pA, pB, pC]).agreementRate
      = some (497/10) := by
  have ht : stanceTally exSt [pA, pB, pC] = (116, 0, 34) := by decide
  rw [agreementRate_closed_form [exSt] [pA, pB, pC] (by decide)]
  norm_num [totalAgreementScore, statementAgreement, totalSeatsOf, maxSeatsOf,
    majorityFraction, ht, sizePenalty, max_def, round1, jsRound]

/-- With `B`'s stance removed (the tally the spec's example actually
computes with) the rate is the announced 33.2. -/
theorem rate_exStNoB_ABC :
    (calculateCoalitionAgreement [exStNoB] [pA, pB, pC]).agreementRate
      = some (332/10) := by
  have ht : stanceTally exStNoB [pA, pB, pC] = (76, 0, 34) := by decide
  rw [agreementRate_closed_form [exStNoB] [pA, pB, pC] (by decide)]
  norm_num [totalAgreementScore, statementAgreement, totalSeatsOf, maxSeatsOf,
    majorityFraction, ht, sizePenalty, max_def, round1, jsRound]

/-- C4 counterexample: for the stated positions `{A: 1, B: 1, C: -1}` the
coalition `{A, B, C}` scores 49.7, which is not the claimed 33.2. -/
theorem continuous_formula_counterexample :
    (calculateCoalitionAgreement [exSt] [pA, pB, pC]).agreementRate
        = some (497/10)
      ∧ (497/10 : ℚ) ≠ 332/10 :=
  ⟨rate_exSt_ABC, by norm_num⟩

/-- C4 amended: the scorer implements the continuous-weighted formula
verbatim (for the defined, non-empty-statement case), `{A, B}` scores
100.0, `{A, B, C}` scores 49.7 for the stated positions, and the spec's
33.2 figure is recovered exactly when `B` has no recorded stance. -/
theorem continuous_formula_agreement :
    (∀ (statements : List Statement) (coalition : List Party),
        statements.length ≠ 0 →
          (calculateCoalitionAgreement statements coalition).agreementRate
            = some (specAgreementRate statements coalition))
      ∧ (calculateCoalitionAgreement [exSt] [pA, pB]).agreementRate = some 100
      ∧ (calculateCoalitionAgreement [exSt] [pA, pB, pC]).agreementRate
          = some (497/10)
      ∧ (calculateCoalitionAgreement [exStNoB] [pA, pB, pC]).agreementRate
          = some (332/10) := by
  refine ⟨?_, rate_exSt_AB, rate_exSt_ABC, rate_exStNoB_ABC⟩
  intro statements coalition hne
  rw [agreementRate_closed_form statements coalition hne]
  simp only [specAgreementRate, specStatementAgreement_eq, totalAgreementScore_eq,
    sizePenalty]

/-- C4 amended witness: the general formula equation applied at the
concrete spec example. -/
theorem continuous_formula_agreement_witness :
    [exSt].length ≠ 0
      ∧ (calculateCoalitionAgreement [exSt] [pA, pB]).agreementRate
          = some (specAgreementRate [exSt] [pA, pB]) :=
  ⟨by decide, continuous_formula_agreement.1 [exSt] [pA, pB] (by decide)⟩

/-!
Claim C9 — ranking and selection: at most five results, sorted by
descending `agreementRate`, ties kept in the Generator's enumeration order
(stability of the ECMAScript sort).
-/

/-- The sort comparator is transitive. -/
theorem rateLe_trans (a b c : List Party × CoalitionScore)
    (hab : decide (rateD b ≤ rateD a) = true)
    (hbc : decide (rateD c ≤ rateD b) = true) :
    decide (rateD c ≤ rateD a) = true := by
  simp only [decide_eq_true_eq] at *
  exact le_trans hbc hab

/-- The sort comparator is total. -/
theorem rateLe_total (a b : List Party × CoalitionScore) :
    (decide (rateD b ≤ rateD a) || decide (rateD a ≤ rateD b)) = true := by
  rcases le_total (rateD b) (rateD a) with h | h <;> simp [h]

/-- C9: `findBestCoalitions` returns at most 5 scored coalitions, sorted
in non-increasing order of `agreementRate`, and for any rate value the
returned coalitions carrying it are an initial segment, in unchanged
order, of the scored Generator output carrying that rate (stable sort). -/
theorem ranking_top5_sorted_stable (parties : List Party)
    (statements : List Statement) (requiredParty : Option String) :
    (findBestCoalitions parties statements requiredParty).length ≤ 5
      ∧ List.Sorted (fun a b => rateD b ≤ rateD a)
          (findBestCoalitions parties statements requiredParty)
      ∧ ∀ q : ℚ, ∃ t,
          (scoredCoalitions parties statements requiredParty).filter
              (fun x => decide (rateD x = q))
            = (findBestCoalitions parties statements requiredParty).filter
                (fun x => decide (rateD x = q)) ++ t := by
  refine ⟨?_, ?_, ?_⟩
  · rw [findBestCoalitions, List.length_take]
    exact min_le_left 5 _
  · have hs := List.sorted_mergeSort rateLe_trans rateLe_total
      (scoredCoalitions parties statements requiredParty)
    have hp : ((scoredCoalitions parties statements requiredParty).mergeSort
        (fun a b => decide (rateD b ≤ rateD a))).Pairwise
          (fun a b => rateD b ≤ rateD a) :=
      hs.imp (fun h => of_decide_eq_true h)
    exact List.Pairwise.sublist (List.take_sublist 5 _) hp
  · intro q
    set l := scoredCoalitions parties statements requiredParty with hl
    set s := l.mergeSort (fun a b => decide (rateD b ≤ rateD a)) with hss
    have hpw : (l.filter (fun x => decide (rateD x = q))).Pairwise
        (fun a b => decide (rateD b ≤ rateD a) = true) := by
      apply List.pairwise_of_forall_mem_list
      intro a ha b hb
      have hqa : rateD a = q := of_decide_eq_true (List.mem_filter.mp ha).2
      have hqb : rateD b = q := of_decide_eq_true (List.mem_filter.mp hb).2
      simp [hqa, hqb]
    have hfil : (l.filter (fun x => decide (rateD x = q))).Sublist s :=
      List.sublist_mergeSort rateLe_trans rateLe_total hpw
        (List.filter_sublist l)
    have heq1 : (l.filter (fun x => decide (rateD x = q))).filter
        (fun x => decide (rateD x = q)) = l.filter (fun x => decide (rateD x = q)) :=
      List.filter_eq_self.mpr (fun a ha => (List.mem_filter.mp ha).2)
    have hsub2 : (l.filter (fun x => decide (rateD x = q))).Sublist
        (s.filter (fun x => decide (rateD x = q))) := by
      have := hfil.filter (fun x => decide (rateD x = q))
      rwa [heq1] at this
    have hperm : (s.filter (fun x => decide (rateD x = q))).Perm
        (l.filter (fun x => decide (rateD x = q))) :=
      (List.mergeSort_perm l _).filter _
    have hfe : l.filter (fun x => decide (rateD x = q))
        = s.filter (fun x => decide (rateD x = q)) :=
      hsub2.eq_of_length hperm.length_eq.symm
    refine ⟨(s.drop 5).filter (fun x => decide (rateD x = q)), ?_⟩
    rw [findBestCoalitions]
    rw [hfe, ← List.filter_append, List.take_append_drop]
